import Mathlib

/-
Shallow embedding of the skill Registry / Executor core
(src/core/skill/types.py, registry.py, executor.py).

Modelling conventions:
- Python dicts are insertion-ordered association lists (`List (String × α)`)
  with `dictGet` / `dictInsert` mirroring `d[k]` lookup and `d[k] = v` update.
- Python values passed to / returned from skills are the inductive `Value`.
  `Value.pyStr` mirrors `str(v)`; escaping of special characters inside the
  repr of strings is not modelled (no property here depends on it).
- The file system is an oracle `FileSystem`: a flag for the existence of the
  skills root plus one `DirEntry` per child, carrying the parse outcome of
  its `skill.yaml` (`Except String SkillConfig`, the error being the message
  the YAML library would raise).
- Dynamically imported handler modules are an oracle `ScriptEnv`.  A handler
  function is modelled as `List (String × Value) → Nat → Except PyExc Value`:
  the `Nat` argument is the invocation index of the call, so that a result
  depending only on index 0 expresses that the handler is invoked exactly
  once (never retried).
- Exceptions are `Except PyExc`; `async` is erased (cooperative concurrency
  with deterministic effects): `asyncio.gather` is modelled by left-to-right
  sequential execution, which realises gather's order guarantee (results are
  placed at the index of their task) and propagates the first exception.
- Wall-clock readings are `Int` parameters `t0 t1` (start / end of the
  dispatch); `time.time()` subtraction becomes `t1 - t0`.
-/

/-- Python single quote, kept out of string literals for hygiene. -/
def quoteCh : String := "\x27"

/-- Wrap a string in single quotes, as Python f-strings with `'{x}'` do. -/
def quo (s : String) : String := quoteCh ++ s ++ quoteCh

/-- Join strings with a separator (used for Python list reprs). -/
def joinSep (sep : String) : List String → String
  | [] => ""
  | [x] => x
  | x :: y :: rest => x ++ sep ++ joinSep sep (y :: rest)

/-- Python repr of a list of strings, e.g. `['a', 'b']`. -/
def pyReprStrList (xs : List String) : String :=
  "[" ++ joinSep ", " (xs.map quo) ++ "]"

/-- Core loop of Python `str.replace`: scan left to right, replace each
non-overlapping occurrence of `pat`, never re-scanning replaced text within
one call.  The `Nat` argument counts pattern characters still to be skipped
after a match (the head character of a match is consumed immediately). -/
def replLoop (pat rep : List Char) : List Char → Nat → List Char
  | [], _ => []
  | _ :: rest, Nat.succ k => replLoop pat rep rest k
  | c :: rest, Nat.zero =>
    if pat.isPrefixOf (c :: rest) then
      rep ++ replLoop pat rep rest (pat.length - 1)
    else
      c :: replLoop pat rep rest 0

/-- Python `s.replace(pat, rep)`.  The empty-pattern case mirrors Python,
which inserts `rep` before every character and at the end. -/
def pyReplace (s pat rep : String) : String :=
  if pat.data.isEmpty then
    String.mk (rep.data ++ s.data.flatMap (fun c => c :: rep.data))
  else
    String.mk (replLoop pat.data rep.data s.data 0)

mutual

/-- Python values exchanged with skills (None, bool, int, str, list, dict). -/
inductive Value where
  | vnone : Value
  | vbool : Bool → Value
  | vint : Int → Value
  | vstr : String → Value
  | vlist : ValueList → Value
  | vdict : ValueDict → Value

/-- A Python list of `Value`s (mutual with `Value` for structural recursion). -/
inductive ValueList where
  | nil : ValueList
  | cons : Value → ValueList → ValueList

/-- A Python dict with string keys (mutual with `Value`). -/
inductive ValueDict where
  | nil : ValueDict
  | cons : String → Value → ValueDict → ValueDict

end

mutual

/-- Python `str(v)`. -/
def Value.pyStr : Value → String
  | .vstr s => s
  | v => v.pyRepr

/-- Python `repr(v)` (string escaping not modelled). -/
def Value.pyRepr : Value → String
  | .vnone => "None"
  | .vbool true => "True"
  | .vbool false => "False"
  | .vint n => toString n
  | .vstr s => quo s
  | .vlist xs => "[" ++ xs.reprItems ++ "]"
  | .vdict xs => "\x7b" ++ xs.reprItems ++ "\x7d"

/-- Comma-separated reprs of list items. -/
def ValueList.reprItems : ValueList → String
  | .nil => ""
  | .cons v .nil => v.pyRepr
  | .cons v (.cons w rest) => v.pyRepr ++ ", " ++ ValueList.reprItems (.cons w rest)

/-- Comma-separated `'key': repr` pairs of dict items. -/
def ValueDict.reprItems : ValueDict → String
  | .nil => ""
  | .cons k v .nil => quo k ++ ": " ++ v.pyRepr
  | .cons k v (.cons k2 w rest) =>
      quo k ++ ": " ++ v.pyRepr ++ ", " ++ ValueDict.reprItems (.cons k2 w rest)

end

/-- Lookup in an insertion-ordered dict (`d.get(k)` / `k in d`). -/
def dictGet {α : Type} (k : String) : List (String × α) → Option α
  | [] => none
  | (k2, v) :: rest => if k2 = k then some v else dictGet k rest

/-- Update in an insertion-ordered dict (`d[k] = v`): an existing key keeps
its position and gets the new value, a fresh key is appended. -/
def dictInsert {α : Type} (k : String) (v : α) : List (String × α) → List (String × α)
  | [] => [(k, v)]
  | (k2, v2) :: rest =>
      if k2 = k then (k, v) :: rest else (k2, v2) :: dictInsert k v rest

/-- `list(d.keys())`. -/
def dictKeys {α : Type} (l : List (String × α)) : List String := l.map Prod.fst

/-- Python exceptions distinguished by the source (`except ImportError`,
`except AttributeError`) plus the ones it raises. -/
inductive PyExc where
  | valueError : String → PyExc
  | fileNotFoundError : String → PyExc
  | importError : String → PyExc
  | attributeError : String → PyExc
  | otherError : String → PyExc

/-- `str(e)` of an exception: its message. -/
def PyExc.msg : PyExc → String
  | .valueError m => m
  | .fileNotFoundError m => m
  | .importError m => m
  | .attributeError m => m
  | .otherError m => m

/-- types.py `SkillType`: closed enumeration of skill variants. -/
inductive SkillType where
  | purePrompt : SkillType
  | pureScript : SkillType
  | hybrid : SkillType
deriving DecidableEq

/-- `SkillType(s)` construction from the YAML `type` string; `none` models
the `ValueError` Python raises for an invalid member value. -/
def SkillType.fromString (s : String) : Option SkillType :=
  if s = "pure-prompt" then some .purePrompt
  else if s = "pure-script" then some .pureScript
  else if s = "hybrid" then some .hybrid
  else none

/-- types.py `InputSchema`. -/
structure InputSchema where
  type : String := "object"
  properties : List (String × Value) := []
  required : List String := []

/-- types.py `OutputSchema`. -/
structure OutputSchema where
  type : String := "object"
  properties : List (String × Value) := []

/-- types.py `ExecutionConfig` (defaults as in `_load_execution_config`). -/
structure ExecutionConfig where
  handler : String
  function : String := "execute"
  timeout : Nat := 30000

/-- types.py `SkillMetadata`: Level-1 catalog entry. -/
structure SkillMetadata where
  name : String
  version : String
  description : String
  tags : List String := []
  type : SkillType

/-- types.py `SkillDefinition`: Level-2 full definition. -/
structure SkillDefinition extends SkillMetadata where
  input_schema : InputSchema
  output_schema : OutputSchema
  prompt_template : Option String := none
  execution : Option ExecutionConfig := none

/-- types.py `SkillResult`: uniform execution outcome envelope. -/
structure SkillResult where
  success : Bool
  output : Option Value := none
  error : Option String := none
  execution_time : Int := 0

/-- The raw `execution` block of a descriptor before defaults are applied
(each field `none` when the key is absent). -/
structure ExecRaw where
  handler : Option String := none
  function : Option String := none
  timeout : Option Nat := none

/-- A parsed `skill.yaml`: each field is `none` when its key is absent.
The `execution` field is doubly optional: the outer layer is `'execution'
in config`, the inner one allows an explicitly null value. -/
structure SkillConfig where
  name : Option String := none
  version : Option String := none
  description : Option String := none
  tags : Option (List String) := none
  type : Option String := none
  input_schema : Option InputSchema := none
  output_schema : Option OutputSchema := none
  prompt_template : Option String := none
  execution : Option (Option ExecRaw) := none

/-- One child of the skills root: its directory name, whether it is a
directory, whether it contains `skill.yaml`, and that file's parse outcome. -/
structure DirEntry where
  dirName : String
  isDir : Bool := true
  hasDescriptor : Bool := true
  descriptor : Except String SkillConfig := .error "unreadable"

/-- The file-system oracle seen by the registry. -/
structure FileSystem where
  rootExists : Bool := true
  entries : List DirEntry := []

/-- The parse outcome of `<root>/<dir>/skill.yaml`, or `none` when that
path does not denote an existing file. -/
def FileSystem.descriptorOf (fs : FileSystem) (dir : String) :
    Option (Except String SkillConfig) :=
  match fs.entries.find? (fun e => e.dirName = dir && e.isDir && e.hasDescriptor) with
  | some e => some e.descriptor
  | none => none

/-- Subdirectories of the root that contain `skill.yaml` (scan candidates). -/
def FileSystem.candidates (fs : FileSystem) : List DirEntry :=
  fs.entries.filter (fun e => e.isDir && e.hasDescriptor)

/-- `Path(a) / b` (a trailing slash on `a` is collapsed). -/
def pathJoin (a b : String) : String :=
  if a.data.getLast? = some '/' then a ++ b else a ++ "/" ++ b

/-- registry.py `SkillRegistry` state. -/
structure SkillRegistry where
  skills_dir : String := "skills/"
  _metadata : List (String × SkillMetadata) := []
  _full_definitions : List (String × SkillDefinition) := []
  _loaded : Bool := false

/-- registry.py `SkillRegistry._load_metadata`: read one descriptor and
validate the required fields, producing Level-1 metadata. -/
def loadMetadata (skillsDir : String) (e : DirEntry) : Except PyExc SkillMetadata :=
  let skillPath := pathJoin skillsDir e.dirName
  if e.hasDescriptor = false then
    .error (.fileNotFoundError ("skill.yaml not found in " ++ skillPath))
  else
    match e.descriptor with
    | .error m => .error (.otherError m)
    | .ok config =>
      match config.name with
      | none => .error (.valueError ("Skill missing " ++ quo "name" ++ " field: " ++ skillPath))
      | some nm =>
        match config.version with
        | none => .error (.valueError ("Skill missing " ++ quo "version" ++ " field: " ++ skillPath))
        | some ver =>
          match config.description with
          | none => .error (.valueError ("Skill missing " ++ quo "description" ++ " field: " ++ skillPath))
          | some desc =>
            match SkillType.fromString (config.type.getD "pure-script") with
            | none => .error (.valueError (quo (config.type.getD "pure-script") ++ " is not a valid SkillType"))
            | some ty =>
              .ok { name := nm, version := ver, description := desc,
                    tags := config.tags.getD [], type := ty }

/-- One step of scan result processing: an exception becomes a warning
line, metadata is installed under its own `name`. -/
def scanStep (st : List (String × SkillMetadata) × List String)
    (res : Except PyExc SkillMetadata) :
    List (String × SkillMetadata) × List String :=
  match res with
  | .error e => (st.1, st.2 ++ ["Warning: Failed to load skill metadata: " ++ e.msg])
  | .ok m => (dictInsert m.name m st.1, st.2)

/-- registry.py `SkillRegistry.scan`: fatal if the root is absent, else load
every candidate in task order, install successes, collect warnings for
failures, and mark the registry loaded.  Returns the new state and the
warning lines printed. -/
def SkillRegistry.scan (r : SkillRegistry) (fs : FileSystem) :
    Except PyExc (SkillRegistry × List String) :=
  if fs.rootExists = false then
    .error (.fileNotFoundError ("Skills directory not found: " ++ r.skills_dir))
  else
    let results := fs.candidates.map (loadMetadata r.skills_dir)
    let st := results.foldl scanStep (r._metadata, [])
    .ok ({ r with _metadata := st.1, _loaded := true }, st.2)

/-- registry.py `SkillRegistry._load_execution_config` composed with the
`'execution' in config` guard of `load_full`. -/
def buildExecution : Option (Option ExecRaw) → Option ExecutionConfig
  | none => none
  | some none => none
  | some (some raw) =>
      some { handler := raw.handler.getD "handler.py",
             function := raw.function.getD "execute",
             timeout := raw.timeout.getD 30000 }

/-- The full definition `load_full` builds from cached metadata plus a
freshly read descriptor. -/
def buildDef (meta : SkillMetadata) (config : SkillConfig) : SkillDefinition :=
  { toSkillMetadata := meta,
    input_schema := config.input_schema.getD {},
    output_schema := config.output_schema.getD {},
    prompt_template := config.prompt_template,
    execution := buildExecution config.execution }

/-- registry.py `SkillRegistry.load_full`: cache hit, else catalog check,
else descriptor re-read, build, cache, return.  Returns the definition and
the new registry state. -/
def SkillRegistry.load_full (r : SkillRegistry) (fs : FileSystem) (skill_name : String) :
    Except PyExc (SkillDefinition × SkillRegistry) :=
  match dictGet skill_name r._full_definitions with
  | some d => .ok (d, r)
  | none =>
    match dictGet skill_name r._metadata with
    | none =>
        .error (.valueError ("Skill " ++ quo skill_name ++ " not found in registry. Available skills: "
          ++ pyReprStrList (dictKeys r._metadata)))
    | some meta =>
      match fs.descriptorOf skill_name with
      | none => .error (.fileNotFoundError ("skill.yaml not found for " ++ quo skill_name))
      | some (.error m) => .error (.otherError m)
      | some (.ok config) =>
          .ok (buildDef meta config,
               { r with _full_definitions :=
                   dictInsert skill_name (buildDef meta config) r._full_definitions })

/-- registry.py `SkillRegistry.list`: all metadata values, filtered by tag
intersection only when `tags` is truthy (so `None` and `[]` do not filter). -/
def SkillRegistry.list (r : SkillRegistry) (tags : Option (List String) := none) :
    List SkillMetadata :=
  let skills := r._metadata.map Prod.snd
  match tags with
  | none => skills
  | some [] => skills
  | some (t :: ts) => skills.filter (fun s => (t :: ts).any (fun tag => s.tags.contains tag))

/-- registry.py `SkillRegistry.get_full`. -/
def SkillRegistry.get_full (r : SkillRegistry) (skill_name : String) : Option SkillDefinition :=
  dictGet skill_name r._full_definitions

/-- registry.py `SkillRegistry.is_loaded`. -/
def SkillRegistry.is_loaded (r : SkillRegistry) : Bool := r._loaded

/-- registry.py `SkillRegistry.get_skill_names`. -/
def SkillRegistry.get_skill_names (r : SkillRegistry) : List String :=
  dictKeys r._metadata

/-- registry.py `SkillRegistry.clear_cache`: drop every cached definition. -/
def SkillRegistry.clear_cache (r : SkillRegistry) : SkillRegistry :=
  { r with _full_definitions := [] }

/-- A dynamically imported handler module: its attributes that are
functions.  A function takes the input dict and the invocation index (0 for
the first call) and returns or raises. -/
structure ScriptModule where
  functions : List (String × (List (String × Value) → Nat → Except PyExc Value)) := []

/-- The import oracle: `importlib.import_module` either yields a module or
raises `ImportError` with the given message. -/
structure ScriptEnv where
  import_module : String → Except String ScriptModule := fun _ => .error "No module"

/-- executor.py `SkillExecutor` state. -/
structure SkillExecutor where
  registry : SkillRegistry := {}
  _loaded : Bool := false

/-- executor.py `SkillExecutor.ensure_loaded`: scan once, then no-op. -/
def SkillExecutor.ensure_loaded (ex : SkillExecutor) (fs : FileSystem) :
    Except PyExc (SkillExecutor × List String) :=
  if ex._loaded then .ok (ex, [])
  else
    match ex.registry.scan fs with
    | .error e => .error e
    | .ok (r, warns) => .ok ({ registry := r, _loaded := true }, warns)

/-- executor.py template rendering inside `_execute_prompt_skill`: for each
input key in iteration order, replace `{{key}}` and then `{key}` by
`str(value)`. -/
def renderTemplate (tmpl : String) (input_data : List (String × Value)) : String :=
  input_data.foldl
    (fun t kv =>
      let t1 := pyReplace t ("\x7b\x7b" ++ kv.1 ++ "\x7d\x7d") kv.2.pyStr
      pyReplace t1 ("\x7b" ++ kv.1 ++ "\x7d") kv.2.pyStr)
    tmpl

/-- executor.py `SkillExecutor._execute_prompt_skill`: fail on a missing or
empty template (`if not skill.prompt_template`), else return the tagged
prompt record. -/
def executePromptSkill (skill : SkillDefinition) (input_data : List (String × Value)) :
    Except PyExc Value :=
  match skill.prompt_template with
  | none =>
      .error (.valueError ("Pure prompt skill " ++ quo skill.name ++ " missing prompt_template"))
  | some tmpl =>
    if tmpl.data = [] then
      .error (.valueError ("Pure prompt skill " ++ quo skill.name ++ " missing prompt_template"))
    else
      .ok (.vdict (.cons "type" (.vstr "prompt")
            (.cons "content" (.vstr (renderTemplate tmpl input_data))
              (.cons "skill_name" (.vstr skill.name) .nil))))

/-- `handler[:-3] if handler.endswith with .py` from `_execute_script_skill`. -/
def stripPySuffix (h : String) : String :=
  let l := h.data
  if l.length ≥ 3 ∧ l.drop (l.length - 3) = ['.', 'p', 'y'] then
    String.mk (l.take (l.length - 3))
  else h

/-- The dotted module path `skills.{skill_name}.{handler}` composed by
`_execute_script_skill`. -/
def modulePath (skillName handler : String) : String :=
  "skills." ++ skillName ++ "." ++ pyReplace (stripPySuffix handler) "/" "."

/-- executor.py `SkillExecutor._execute_script_skill`: require an execution
config (before the inner try), resolve the module and the function, invoke
it once; the inner `except ImportError` / `except AttributeError` clauses
re-raise with a wrapped message and also catch such exceptions raised by
the handler itself. -/
def executeScriptSkill (env : ScriptEnv) (skill : SkillDefinition)
    (input_data : List (String × Value)) : Except PyExc Value :=
  match skill.execution with
  | none =>
      .error (.valueError ("Script skill " ++ quo skill.name ++ " missing execution config"))
  | some ec =>
    let inner : Except PyExc Value :=
      match env.import_module (modulePath skill.name ec.handler) with
      | .error m => .error (.importError m)
      | .ok moduleVal =>
        match dictGet ec.function moduleVal.functions with
        | none =>
            .error (.attributeError ("Function " ++ quo ec.function ++ " not found in module "
              ++ quo (modulePath skill.name ec.handler)))
        | some f => f input_data 0
    match inner with
    | .error (.importError m) =>
        .error (.importError ("Failed to import skill module for " ++ quo skill.name ++ ": " ++ m))
    | .error (.attributeError m) =>
        .error (.attributeError ("Handler function not found for skill " ++ quo skill.name ++ ": " ++ m))
    | other => other

/-- executor.py `SkillExecutor._execute_hybrid_skill`: identical dispatch to
the script path (the template is not touched by the Executor here). -/
def executeHybridSkill (env : ScriptEnv) (skill : SkillDefinition)
    (input_data : List (String × Value)) : Except PyExc Value :=
  executeScriptSkill env skill input_data

/-- executor.py `SkillExecutor.execute`.  Faithful to the source control
flow: `ensure_loaded` and `load_full` run OUTSIDE the try block, so their
exceptions propagate to the caller; only the dispatch from `start_time`
onwards is wrapped into a `SkillResult`.  `t0` / `t1` are the two
`time.time()` readings. -/
def SkillExecutor.execute (ex : SkillExecutor) (fs : FileSystem) (env : ScriptEnv)
    (t0 t1 : Int) (skill_name : String) (input_data : List (String × Value)) :
    Except PyExc (SkillResult × SkillExecutor) :=
  match ex.ensure_loaded fs with
  | .error e => .error e
  | .ok (ex1, _warns) =>
    match ex1.registry.load_full fs skill_name with
    | .error e => .error e
    | .ok (skill, reg1) =>
      match (match skill.type with
             | .purePrompt => executePromptSkill skill input_data
             | .pureScript => executeScriptSkill env skill input_data
             | .hybrid => executeHybridSkill env skill input_data) with
      | .ok output =>
          .ok ({ success := true, output := some output, error := none,
                 execution_time := t1 - t0 }, { registry := reg1, _loaded := ex1._loaded })
      | .error e =>
          .ok ({ success := false, output := none, error := some e.msg,
                 execution_time := t1 - t0 }, { registry := reg1, _loaded := ex1._loaded })

/-- One entry of `execute_batch`: `input_data` is `none` when the key is
absent (`exec.get('input_data', {})`). -/
structure BatchEntry where
  skill_name : String
  input_data : Option (List (String × Value)) := none

/-- The fan-out/fan-in of `asyncio.gather` over `execute` tasks, modelled
sequentially in submission order: each result lands at the index of its
entry, and an exception escaping one `execute` propagates. -/
def batchLoop (fs : FileSystem) (env : ScriptEnv) (t0 t1 : Int) :
    SkillExecutor → List BatchEntry → Except PyExc (List SkillResult × SkillExecutor)
  | ex, [] => .ok ([], ex)
  | ex, entry :: rest =>
    match ex.execute fs env t0 t1 entry.skill_name (entry.input_data.getD []) with
    | .error e => .error e
    | .ok (r, ex2) =>
      match batchLoop fs env t0 t1 ex2 rest with
      | .error e => .error e
      | .ok (rs, ex3) => .ok (r :: rs, ex3)

/-- executor.py `SkillExecutor.execute_batch`. -/
def SkillExecutor.execute_batch (ex : SkillExecutor) (fs : FileSystem) (env : ScriptEnv)
    (t0 t1 : Int) (executions : List BatchEntry) :
    Except PyExc (List SkillResult × SkillExecutor) :=
  match ex.ensure_loaded fs with
  | .error e => .error e
  | .ok (ex1, _warns) => batchLoop fs env t0 t1 ex1 executions

/-- Modelled from the spec wording for PromptOnly dispatch: "for every key
in `input`, replace every occurrence of `{{key}}` and every occurrence of
`{key}` in the template text with the string form of the value", taking the
keys in the input's iteration order.  This is the specification-side
counterpart of `renderTemplate` (which is translated from the source). -/
def renderSpec : String → List (String × Value) → String
  | tmpl, [] => tmpl
  | tmpl, (k, v) :: rest =>
      renderSpec
        (pyReplace (pyReplace tmpl ("\x7b\x7b" ++ k ++ "\x7d\x7d") v.pyStr)
          ("\x7b" ++ k ++ "\x7d") v.pyStr) rest

/-- The full definition `load_full` would build for `n` from the current
file system and a metadata catalog, when `n` is known and its descriptor
parses; `none` otherwise. -/
def defFromFs (md : List (String × SkillMetadata)) (fs : FileSystem) (n : String) :
    Option SkillDefinition :=
  match dictGet n md, fs.descriptorOf n with
  | some meta, some (.ok config) => some (buildDef meta config)
  | _, _ => none

/-- A registry cache is coherent with a file system when every cached
definition is exactly what a fresh `load_full` would build from it. -/
def Coherent (fs : FileSystem) (r : SkillRegistry) : Prop :=
  ∀ n d, dictGet n r._full_definitions = some d → defFromFs r._metadata fs n = some d

/-- The same executor with an empty full-definition cache. -/
def cacheFree (ex : SkillExecutor) : SkillExecutor :=
  { registry := { skills_dir := ex.registry.skills_dir,
                  _metadata := ex.registry._metadata,
                  _full_definitions := [],
                  _loaded := ex.registry._loaded },
    _loaded := ex._loaded }

/-- The `SkillResult` a batch entry yields when executed on its own, from a
cache-free copy of the executor (`none` when `execute` raises). -/
def entryResult (fs : FileSystem) (env : ScriptEnv) (t0 t1 : Int)
    (ex : SkillExecutor) (e : BatchEntry) : Option SkillResult :=
  match (cacheFree ex).execute fs env t0 t1 e.skill_name (e.input_data.getD []) with
  | .ok (r, _) => some r
  | .error _ => none

/-- The result envelope `execute` wraps around the dispatch of a loaded
definition. -/
def dispatchResult (env : ScriptEnv) (t0 t1 : Int) (d : SkillDefinition)
    (inp : List (String × Value)) : SkillResult :=
  match (match d.type with
         | .purePrompt => executePromptSkill d inp
         | .pureScript => executeScriptSkill env d inp
         | .hybrid => executeHybridSkill env d inp) with
  | .ok output =>
      { success := true, output := some output, error := none, execution_time := t1 - t0 }
  | .error e =>
      { success := false, output := none, error := some e.msg, execution_time := t1 - t0 }

/-- The metadata of a successful per-skill scan task. -/
def exceptOk : Except PyExc SkillMetadata → Option SkillMetadata
  | .ok m => some m
  | .error _ => none

/-- The warning line a failed per-skill scan task produces. -/
def warningOf : Except PyExc SkillMetadata → Option String
  | .error e => some ("Warning: Failed to load skill metadata: " ++ e.msg)
  | .ok _ => none

/-! ### Concrete world used by witnesses and counterexamples -/

/-- A well-formed PromptOnly skill. -/
def metaGreet : SkillMetadata :=
  { name := "greet", version := "1.0.0", description := "greets",
    tags := ["text"], type := .purePrompt }

/-- Descriptor of `greet`, with a template using both placeholder styles. -/
def cfgGreet : SkillConfig :=
  { name := some "greet", version := some "1.0.0", description := some "greets",
    tags := some ["text"], type := some "pure-prompt",
    prompt_template := some "Hello \x7b\x7bname\x7d\x7d, age \x7bage\x7d" }

/-- Full definition of `greet`. -/
def defGreet : SkillDefinition := buildDef metaGreet cfgGreet

/-- A ScriptOnly skill whose handler raises a generic exception. -/
def metaBoom : SkillMetadata :=
  { name := "boom", version := "0.1.0", description := "fails",
    tags := ["test"], type := .pureScript }

/-- Descriptor of `boom`. -/
def cfgBoom : SkillConfig :=
  { name := some "boom", version := some "0.1.0", description := some "fails",
    tags := some ["test"], type := some "pure-script",
    execution := some (some { handler := some "handler.py", function := some "run" }) }

/-- Full definition of `boom`. -/
def defBoom : SkillDefinition := buildDef metaBoom cfgBoom

/-- A ScriptOnly skill whose handler raises an `AttributeError`. -/
def metaAttr : SkillMetadata :=
  { name := "attr", version := "0.1.0", description := "raises AttributeError",
    tags := [], type := .pureScript }

/-- Descriptor of `attr`. -/
def cfgAttr : SkillConfig :=
  { name := some "attr", version := some "0.1.0",
    description := some "raises AttributeError", type := some "pure-script",
    execution := some (some { handler := some "handler.py", function := some "run" }) }

/-- Full definition of `attr`. -/
def defAttr : SkillDefinition := buildDef metaAttr cfgAttr

/-- A PromptOnly skill whose descriptor has no `prompt_template`. -/
def metaNoT : SkillMetadata :=
  { name := "nptmpl", version := "0.1.0",
    description := "prompt skill without template", tags := [], type := .purePrompt }

/-- Descriptor of `nptmpl` (no `prompt_template` key). -/
def cfgNoT : SkillConfig :=
  { name := some "nptmpl", version := some "0.1.0",
    description := some "prompt skill without template", type := some "pure-prompt" }

/-- A skill directory whose descriptor parses to `cfg`. -/
def entryOf (cfg : SkillConfig) (dir : String) : DirEntry :=
  { dirName := dir, isDir := true, hasDescriptor := true, descriptor := .ok cfg }

/-- The test file system: four skill directories. -/
def fsWorld : FileSystem :=
  { rootExists := true,
    entries := [entryOf cfgGreet "greet", entryOf cfgBoom "boom",
                entryOf cfgAttr "attr", entryOf cfgNoT "nptmpl"] }

/-- The metadata catalog of the test world after a scan. -/
def mdWorld : List (String × SkillMetadata) :=
  [("greet", metaGreet), ("boom", metaBoom), ("attr", metaAttr), ("nptmpl", metaNoT)]

/-- The import oracle of the test world: `boom.run` raises a `ValueError`,
`attr.run` raises an `AttributeError`. -/
def envWorld : ScriptEnv :=
  { import_module := fun p =>
      if p = "skills.boom.handler" then
        .ok { functions := [("run", fun _ _ => .error (.valueError "boom failed"))] }
      else if p = "skills.attr.handler" then
        .ok { functions := [("run", fun _ _ => .error (.attributeError "boom"))] }
      else .error ("No module named " ++ quo p) }

/-- A scanned registry for the test world (cache still empty). -/
def regWorld : SkillRegistry :=
  { skills_dir := "skills/", _metadata := mdWorld,
    _full_definitions := [], _loaded := true }

/-- A loaded executor over `regWorld`. -/
def exWorld : SkillExecutor := { registry := regWorld, _loaded := true }

/-- A loaded executor whose cache already holds three full definitions. -/
def exWorldCached : SkillExecutor :=
  { registry := { regWorld with _full_definitions :=
      [("greet", defGreet), ("boom", defBoom), ("attr", defAttr)] },
    _loaded := true }

/-- Scan-test world: three well-formed descriptors ... -/
def cfgAlpha : SkillConfig :=
  { name := some "alpha", version := some "1", description := some "a",
    type := some "pure-script", execution := some (some {}) }

/-- ... a second valid descriptor ... -/
def cfgBeta : SkillConfig :=
  { name := some "beta", version := some "1", description := some "b",
    type := some "pure-prompt", prompt_template := some "hi" }

/-- ... a third valid descriptor relying on the default type ... -/
def cfgGamma : SkillConfig :=
  { name := some "gamma", version := some "1", description := some "c" }

/-- ... and a malformed one (required field `description` missing). -/
def cfgDelta : SkillConfig :=
  { name := some "delta", version := some "1" }

/-- Scan-test file system: 3 valid + 1 malformed candidates. -/
def fsScan : FileSystem :=
  { rootExists := true,
    entries := [entryOf cfgAlpha "alpha", entryOf cfgBeta "beta",
                entryOf cfgGamma "gamma", entryOf cfgDelta "delta"] }

/-- A freshly constructed registry (never scanned). -/
def regFresh : SkillRegistry := { skills_dir := "skills/" }

/-! ### Dictionary lemmas -/

theorem dictGet_insert_self {α : Type} (k : String) (v : α) (l : List (String × α)) :
    dictGet k (dictInsert k v l) = some v := by
  induction l with
  | nil => simp [dictInsert, dictGet]
  | cons hd t ih =>
    obtain ⟨k2, v2⟩ := hd
    by_cases hk : k2 = k
    · simp [dictInsert, hk, dictGet]
    · simp [dictInsert, hk, dictGet, ih]

theorem dictGet_insert_ne {α : Type} (k k2 : String) (v : α) (l : List (String × α))
    (h : k2 ≠ k) : dictGet k2 (dictInsert k v l) = dictGet k2 l := by
  have hne : ¬ k = k2 := fun hh => h hh.symm
  induction l with
  | nil => simp [dictInsert, dictGet, hne]
  | cons hd t ih =>
    obtain ⟨k3, v3⟩ := hd
    by_cases hk : k3 = k
    · subst hk
      simp [dictInsert, dictGet, hne]
    · by_cases hk2 : k3 = k2
      · subst hk2
        simp [dictInsert, hk, dictGet]
      · simp [dictInsert, hk, dictGet, hk2, ih]

theorem dictInsert_fresh {α : Type} (k : String) (v : α) (l : List (String × α))
    (h : dictGet k l = none) : dictInsert k v l = l ++ [(k, v)] := by
  induction l with
  | nil => simp [dictInsert]
  | cons hd t ih =>
    obtain ⟨k2, v2⟩ := hd
    by_cases hk : k2 = k
    · simp [dictGet, hk] at h
    · simp [dictGet, hk] at h
      simp [dictInsert, hk, ih h]

theorem dictGet_append_of_left_none {α : Type} (k : String) (l1 l2 : List (String × α))
    (h : dictGet k l1 = none) : dictGet k (l1 ++ l2) = dictGet k l2 := by
  induction l1 with
  | nil => simp
  | cons hd t ih =>
    obtain ⟨k2, v2⟩ := hd
    by_cases hk : k2 = k
    · simp [dictGet, hk] at h
    · simp [dictGet, hk] at h ⊢
      exact ih h

/-! ### C10 -/

/-- C10: calling `Registry.list` with an empty tag list returns all metadata
records, exactly as calling it with no tag filter — the empty filter does
not behave as "intersects with nothing" but as no filtering at all. -/
theorem list_empty_tags_no_filter (r : SkillRegistry) :
    r.list (some []) = r.list none ∧ r.list none = r._metadata.map Prod.snd :=
  ⟨rfl, rfl⟩

/-! ### C8 -/

/-- C8: once `load_full` has succeeded for a name, every subsequent
`load_full` for the same name returns the same cached definition and the
same state — even against an arbitrary other file system `fs2`, which shows
the descriptor is not re-read. -/
theorem load_full_identity_stable (r r2 : SkillRegistry) (fs fs2 : FileSystem)
    (n : String) (d : SkillDefinition)
    (h : r.load_full fs n = .ok (d, r2)) :
    r2.load_full fs2 n = .ok (d, r2) := by
  have hc : dictGet n r2._full_definitions = some d := by
    unfold SkillRegistry.load_full at h
    split at h
    · rename_i d0 hd0
      injection h with h1
      injection h1 with h2 h3
      subst h2; subst h3
      exact hd0
    · split at h
      · exact absurd h (by simp)
      · split at h
        · exact absurd h (by simp)
        · exact absurd h (by simp)
        · rename_i meta hmeta config hconfig
          injection h with h1
          injection h1 with h2 h3
          subst h2
          rw [← h3]
          exact dictGet_insert_self n _ _
  unfold SkillRegistry.load_full
  rw [hc]

/-- Witness for C8: a concrete first `load_full` succeeds and caches; the
second call returns the identical definition and state although it is given
a file system whose root does not even exist (no re-read). -/
theorem load_full_identity_stable_witness :
    regWorld.load_full fsWorld "greet" =
      .ok (defGreet, { regWorld with _full_definitions := [("greet", defGreet)] }) ∧
    SkillRegistry.load_full
        { regWorld with _full_definitions := [("greet", defGreet)] }
        { rootExists := false, entries := [] } "greet" =
      .ok (defGreet, { regWorld with _full_definitions := [("greet", defGreet)] }) :=
  ⟨rfl, load_full_identity_stable regWorld
    { regWorld with _full_definitions := [("greet", defGreet)] }
    fsWorld { rootExists := false, entries := [] } "greet" defGreet rfl⟩

/-! ### C9 -/

/-- C9: `clear_cache` removes all cached full definitions while leaving the
metadata catalog and the loaded flag unchanged — `list`, `get_skill_names`
and `is_loaded` answer exactly as before — and a subsequent `load_full`
re-reads the descriptor from the current file system and rebuilds the
definition from it. -/
theorem clear_cache_frame (r : SkillRegistry) (fs : FileSystem) (n : String)
    (meta : SkillMetadata) (cfg : SkillConfig)
    (hm : dictGet n r._metadata = some meta)
    (hd : fs.descriptorOf n = some (.ok cfg)) :
    r.clear_cache._metadata = r._metadata ∧
    r.clear_cache._loaded = r._loaded ∧
    r.clear_cache._full_definitions = [] ∧
    (∀ tags, r.clear_cache.list tags = r.list tags) ∧
    r.clear_cache.get_skill_names = r.get_skill_names ∧
    r.clear_cache.is_loaded = r.is_loaded ∧
    r.clear_cache.load_full fs n =
      .ok (buildDef meta cfg,
           { r.clear_cache with
               _full_definitions := dictInsert n (buildDef meta cfg) [] }) := by
  refine ⟨rfl, rfl, rfl, fun tags => rfl, rfl, rfl, ?_⟩
  unfold SkillRegistry.load_full
  simp [SkillRegistry.clear_cache, dictGet, hm, hd]

/-- Witness for C9 on the concrete world: the cache is initially non-empty,
and all frame conditions plus the re-read hold. -/
theorem clear_cache_frame_witness :
    dictGet "greet" exWorldCached.registry._metadata = some metaGreet ∧
    fsWorld.descriptorOf "greet" = some (.ok cfgGreet) ∧
    exWorldCached.registry._full_definitions ≠ [] ∧
    (exWorldCached.registry.clear_cache._metadata = exWorldCached.registry._metadata ∧
     exWorldCached.registry.clear_cache._loaded = exWorldCached.registry._loaded ∧
     exWorldCached.registry.clear_cache._full_definitions = [] ∧
     exWorldCached.registry.clear_cache.list none = exWorldCached.registry.list none ∧
     exWorldCached.registry.clear_cache.list (some ["text"]) =
       exWorldCached.registry.list (some ["text"]) ∧
     exWorldCached.registry.clear_cache.get_skill_names = exWorldCached.registry.get_skill_names ∧
     exWorldCached.registry.clear_cache.is_loaded = exWorldCached.registry.is_loaded ∧
     exWorldCached.registry.clear_cache.load_full fsWorld "greet" =
       .ok (buildDef metaGreet cfgGreet,
            { exWorldCached.registry.clear_cache with
                _full_definitions := dictInsert "greet" (buildDef metaGreet cfgGreet) [] })) := by
  obtain ⟨h1, h2, h3, h4, h5, h6, h7⟩ :=
    clear_cache_frame exWorldCached.registry fsWorld "greet" metaGreet cfgGreet rfl rfl
  exact ⟨rfl, rfl, by simp [exWorldCached, regWorld],
    h1, h2, h3, h4 none, h4 (some ["text"]), h5, h6, h7⟩

/-! ### C6 -/

/-- C6: whenever `execute` returns a result (with the end clock reading not
before the start reading), the envelope invariant holds: `output` is
populated iff `success`, `error` is populated iff not `success`, and
`execution_time` is a non-negative elapsed time. -/
theorem execute_result_envelope (ex : SkillExecutor) (fs : FileSystem) (env : ScriptEnv)
    (t0 t1 : Int) (n : String) (inp : List (String × Value))
    (res : SkillResult) (ex2 : SkillExecutor)
    (ht : t0 ≤ t1)
    (h : ex.execute fs env t0 t1 n inp = .ok (res, ex2)) :
    (res.success = true ↔ res.output.isSome = true) ∧
    (res.success = false ↔ res.error.isSome = true) ∧
    0 ≤ res.execution_time := by
  unfold SkillExecutor.execute at h
  split at h
  · exact absurd h (by simp)
  · split at h
    · exact absurd h (by simp)
    · split at h
      · injection h with h1
        injection h1 with h2 h3
        subst h2
        refine ⟨by simp, by simp, ?_⟩
        simpa using Int.sub_nonneg.mpr ht
      · injection h with h1
        injection h1 with h2 h3
        subst h2
        refine ⟨by simp, by simp, ?_⟩
        simpa using Int.sub_nonneg.mpr ht

/-- Witness for C6: a concrete successful `execute` (a cached PromptOnly
skill) satisfies the envelope invariant. -/
theorem execute_result_envelope_witness :
    (0 : Int) ≤ 1 ∧
    (({ success := true,
        output := some (.vdict (.cons "type" (.vstr "prompt")
          (.cons "content" (.vstr "Hello Ada, age 30")
            (.cons "skill_name" (.vstr "greet") .nil)))),
        error := none, execution_time := 1 } : SkillResult).success = true ↔
      ({ success := true,
         output := some (.vdict (.cons "type" (.vstr "prompt")
           (.cons "content" (.vstr "Hello Ada, age 30")
             (.cons "skill_name" (.vstr "greet") .nil)))),
         error := none, execution_time := 1 } : SkillResult).output.isSome = true) ∧
    (({ success := true,
        output := some (.vdict (.cons "type" (.vstr "prompt")
          (.cons "content" (.vstr "Hello Ada, age 30")
            (.cons "skill_name" (.vstr "greet") .nil)))),
        error := none, execution_time := 1 } : SkillResult).success = false ↔
      ({ success := true,
         output := some (.vdict (.cons "type" (.vstr "prompt")
           (.cons "content" (.vstr "Hello Ada, age 30")
             (.cons "skill_name" (.vstr "greet") .nil)))),
         error := none, execution_time := 1 } : SkillResult).error.isSome = true) ∧
    0 ≤ ({ success := true,
           output := some (.vdict (.cons "type" (.vstr "prompt")
             (.cons "content" (.vstr "Hello Ada, age 30")
               (.cons "skill_name" (.vstr "greet") .nil)))),
           error := none, execution_time := 1 } : SkillResult).execution_time :=
  ⟨by decide,
   execute_result_envelope exWorldCached fsWorld envWorld 0 1 "greet"
     [("name", .vstr "Ada"), ("age", .vint 30)] _ exWorldCached (by decide) rfl⟩

/-! ### C1 -/

/-- C1 (code bug): `execute` for a name that was never discovered does NOT
return a failed `SkillResult` — the `ValueError` raised by `load_full`
propagates to the caller, because `load_full` is called outside the
`try` block of `execute` (executor.py line 65).  The repository's own unit
test `test_skill_not_found` expects `success=False` and "not found" inside
`result.error` instead. -/
theorem execute_unknown_skill_raises :
    exWorld.execute fsWorld envWorld 0 0 "does-not-exist" [] =
      .error (.valueError ("Skill " ++ quo "does-not-exist" ++
        " not found in registry. Available skills: " ++
        pyReprStrList ["greet", "boom", "attr", "nptmpl"])) := rfl

/-! ### C2 -/

/-- C2 counterexample: `load_full` for a PromptOnly skill whose descriptor
lacks `prompt_template` SUCCEEDS — the definition is built, cached and
returned; no configuration error is raised at load time. -/
theorem load_full_missing_template_succeeds_cex :
    regWorld.load_full fsWorld "nptmpl" =
      .ok (buildDef metaNoT cfgNoT,
        { regWorld with _full_definitions := [("nptmpl", buildDef metaNoT cfgNoT)] }) ∧
    (buildDef metaNoT cfgNoT).prompt_template = none ∧
    (buildDef metaNoT cfgNoT).type = .purePrompt :=
  ⟨rfl, rfl, rfl⟩

/-- C2 (amended): the missing-template invariant is enforced at DISPATCH
time, not at load time.  `load_full` builds and caches the unvalidated
definition; the subsequent `execute` fails closed, returning a failed
`SkillResult` whose error names the missing `prompt_template`. -/
theorem missing_template_fails_at_dispatch (ex : SkillExecutor) (fs : FileSystem)
    (env : ScriptEnv) (t0 t1 : Int) (n : String) (inp : List (String × Value))
    (meta : SkillMetadata) (cfg : SkillConfig)
    (hld : ex._loaded = true)
    (hcache : dictGet n ex.registry._full_definitions = none)
    (hm : dictGet n ex.registry._metadata = some meta)
    (hd : fs.descriptorOf n = some (.ok cfg))
    (hty : meta.type = .purePrompt)
    (htm : cfg.prompt_template = none) :
    ex.registry.load_full fs n =
      .ok (buildDef meta cfg,
           { ex.registry with
               _full_definitions :=
                 dictInsert n (buildDef meta cfg) ex.registry._full_definitions }) ∧
    dictGet n (dictInsert n (buildDef meta cfg) ex.registry._full_definitions) =
      some (buildDef meta cfg) ∧
    ex.execute fs env t0 t1 n inp =
      .ok ({ success := false, output := none,
             error := some ("Pure prompt skill " ++ quo meta.name ++ " missing prompt_template"),
             execution_time := t1 - t0 },
           { registry :=
               { ex.registry with
                   _full_definitions :=
                     dictInsert n (buildDef meta cfg) ex.registry._full_definitions },
             _loaded := ex._loaded }) := by
  have hload : ex.registry.load_full fs n =
      .ok (buildDef meta cfg,
           { ex.registry with
               _full_definitions :=
                 dictInsert n (buildDef meta cfg) ex.registry._full_definitions }) := by
    unfold SkillRegistry.load_full
    rw [hcache, hm, hd]
  refine ⟨hload, dictGet_insert_self _ _ _, ?_⟩
  simp only [SkillExecutor.execute, SkillExecutor.ensure_loaded, hld, if_true, hload,
    buildDef, hty, executePromptSkill, htm, PyExc.msg]

/-- Witness for C2 (amended): the concrete template-less PromptOnly skill
`nptmpl` loads and caches fine, and `execute` fails closed at dispatch. -/
theorem missing_template_fails_at_dispatch_witness :
    exWorld._loaded = true ∧
    dictGet "nptmpl" exWorld.registry._full_definitions = none ∧
    dictGet "nptmpl" exWorld.registry._metadata = some metaNoT ∧
    fsWorld.descriptorOf "nptmpl" = some (.ok cfgNoT) ∧
    metaNoT.type = .purePrompt ∧
    cfgNoT.prompt_template = none ∧
    (exWorld.registry.load_full fsWorld "nptmpl" =
       .ok (buildDef metaNoT cfgNoT,
            { exWorld.registry with
                _full_definitions :=
                  dictInsert "nptmpl" (buildDef metaNoT cfgNoT)
                    exWorld.registry._full_definitions }) ∧
     dictGet "nptmpl"
         (dictInsert "nptmpl" (buildDef metaNoT cfgNoT) exWorld.registry._full_definitions) =
       some (buildDef metaNoT cfgNoT) ∧
     exWorld.execute fsWorld envWorld 0 1 "nptmpl" [] =
       .ok ({ success := false, output := none,
              error := some ("Pure prompt skill " ++ quo metaNoT.name ++
                " missing prompt_template"),
              execution_time := 1 - 0 },
            { registry :=
                { exWorld.registry with
                    _full_definitions :=
                      dictInsert "nptmpl" (buildDef metaNoT cfgNoT)
                        exWorld.registry._full_definitions },
              _loaded := exWorld._loaded })) :=
  ⟨rfl, rfl, rfl, rfl, rfl, rfl,
   missing_template_fails_at_dispatch exWorld fsWorld envWorld 0 1 "nptmpl" []
     metaNoT cfgNoT rfl rfl rfl rfl rfl rfl⟩

/-! ### C4 -/

/-- The source's fold of sequential replacements agrees with the spec's
formulation of the substitution. -/
theorem renderTemplate_eq_renderSpec (inp : List (String × Value)) :
    ∀ tmpl, renderTemplate tmpl inp = renderSpec tmpl inp := by
  induction inp with
  | nil => intro tmpl; rfl
  | cons kv rest ih =>
    intro tmpl
    obtain ⟨k, v⟩ := kv
    simpa [renderTemplate, renderSpec] using ih _

/-- C4: executing a PromptOnly skill with a (non-empty) template yields a
successful result whose output is the tagged record
`type = "prompt"`, `content` = the template with, for every input key in
iteration order, every `{{key}}` and every `{key}` replaced by the string
form of the value (`renderSpec`, the spec-side formulation), and
`skill_name` = the skill's name. -/
theorem execute_prompt_substitution (ex : SkillExecutor) (fs : FileSystem)
    (env : ScriptEnv) (t0 t1 : Int) (n : String) (inp : List (String × Value))
    (d : SkillDefinition) (tmpl : String)
    (hld : ex._loaded = true)
    (hcache : dictGet n ex.registry._full_definitions = some d)
    (hty : d.type = .purePrompt)
    (htm : d.prompt_template = some tmpl)
    (hne : tmpl.data ≠ []) :
    ex.execute fs env t0 t1 n inp =
      .ok ({ success := true,
             output := some (.vdict (.cons "type" (.vstr "prompt")
               (.cons "content" (.vstr (renderSpec tmpl inp))
                 (.cons "skill_name" (.vstr d.name) .nil)))),
             error := none, execution_time := t1 - t0 }, ex) := by
  have hr := renderTemplate_eq_renderSpec inp tmpl
  simp only [SkillExecutor.execute, SkillExecutor.ensure_loaded, hld, if_true,
    SkillRegistry.load_full, hcache, hty, executePromptSkill, htm, hne, hr]
  rw [if_neg (fun h => h)]
  have hex : ({ registry := ex.registry, _loaded := true } : SkillExecutor) = ex := by
    rw [← hld]
  rw [hex]

/-- Witness for C4: the spec's worked example — template
`"Hello {{name}}, age {age}"` with input `{name: "Ada", age: 30}` yields
content `"Hello Ada, age 30"`. -/
theorem execute_prompt_substitution_witness :
    exWorldCached._loaded = true ∧
    dictGet "greet" exWorldCached.registry._full_definitions = some defGreet ∧
    defGreet.type = .purePrompt ∧
    defGreet.prompt_template = some "Hello \x7b\x7bname\x7d\x7d, age \x7bage\x7d" ∧
    exWorldCached.execute fsWorld envWorld 0 1 "greet"
        [("name", .vstr "Ada"), ("age", .vint 30)] =
      .ok ({ success := true,
             output := some (.vdict (.cons "type" (.vstr "prompt")
               (.cons "content" (.vstr "Hello Ada, age 30")
                 (.cons "skill_name" (.vstr "greet") .nil)))),
             error := none, execution_time := 1 }, exWorldCached) := by
  refine ⟨rfl, rfl, rfl, rfl, ?_⟩
  exact execute_prompt_substitution exWorldCached fsWorld envWorld 0 1 "greet"
    [("name", .vstr "Ada"), ("age", .vint 30)] defGreet
    "Hello \x7b\x7bname\x7d\x7d, age \x7bage\x7d" rfl rfl rfl rfl (by decide)

/-! ### C7 -/

/-- C7 counterexample: a ScriptOnly skill whose handler raises an
`AttributeError` with message "boom" during invocation yields a failed
result whose error is NOT the exception's message — the script path's
`except AttributeError` clause re-raises it wrapped with a prefix naming
the skill. -/
theorem handler_attribute_error_wrapped_cex :
    exWorldCached.execute fsWorld envWorld 0 0 "attr" [] =
      .ok ({ success := false, output := none,
             error := some ("Handler function not found for skill " ++ quo "attr" ++ ": boom"),
             execution_time := 0 }, exWorldCached) ∧
    ("Handler function not found for skill " ++ quo "attr" ++ ": boom") ≠ "boom" :=
  ⟨rfl, by decide⟩

/-- C7 (amended): a handler exception during invocation is caught and
yields `success=false` with `execution_time = t1 - t0 ≥ 0`, without any
retry (the result is fully determined by the invocation-0 outcome of the
handler); `error` equals the raised exception's message, except that an
`ImportError` or `AttributeError` raised by the handler is re-raised by the
script path with a wrapping prefix that names the skill, so for those two
kinds `error` is the wrapped message. -/
theorem handler_exception_reported (ex : SkillExecutor) (fs : FileSystem)
    (env : ScriptEnv) (t0 t1 : Int) (n : String) (inp : List (String × Value))
    (d : SkillDefinition) (ec : ExecutionConfig) (moduleVal : ScriptModule)
    (f : List (String × Value) → Nat → Except PyExc Value) (exc : PyExc)
    (hld : ex._loaded = true)
    (hcache : dictGet n ex.registry._full_definitions = some d)
    (hty : d.type = .pureScript ∨ d.type = .hybrid)
    (hexec : d.execution = some ec)
    (himp : env.import_module (modulePath d.name ec.handler) = .ok moduleVal)
    (hfn : dictGet ec.function moduleVal.functions = some f)
    (hraise : f inp 0 = .error exc)
    (ht : t0 ≤ t1) :
    ex.execute fs env t0 t1 n inp =
      .ok ({ success := false, output := none,
             error := some (match exc with
               | .importError m =>
                   "Failed to import skill module for " ++ quo d.name ++ ": " ++ m
               | .attributeError m =>
                   "Handler function not found for skill " ++ quo d.name ++ ": " ++ m
               | e => e.msg),
             execution_time := t1 - t0 }, ex) ∧
    0 ≤ t1 - t0 := by
  have hex : ({ registry := ex.registry, _loaded := true } : SkillExecutor) = ex := by
    rw [← hld]
  have hscript : executeScriptSkill env d inp =
      .error (match exc with
        | .importError m =>
            .importError ("Failed to import skill module for " ++ quo d.name ++ ": " ++ m)
        | .attributeError m =>
            .attributeError ("Handler function not found for skill " ++ quo d.name ++ ": " ++ m)
        | e => e) := by
    simp only [executeScriptSkill, hexec, himp, hfn, hraise]
    cases exc <;> rfl
  refine ⟨?_, Int.sub_nonneg.mpr ht⟩
  rcases hty with h | h <;>
    simp only [SkillExecutor.execute, SkillExecutor.ensure_loaded, hld, if_true,
      SkillRegistry.load_full, hcache, h, executeHybridSkill, hscript, hex] <;>
    cases exc <;> rfl

/-- Witness for C7 (amended): the `boom` handler raises a plain
`ValueError("boom failed")`; the result's error is exactly that message. -/
theorem handler_exception_reported_witness :
    exWorldCached._loaded = true ∧
    dictGet "boom" exWorldCached.registry._full_definitions = some defBoom ∧
    (defBoom.type = .pureScript ∨ defBoom.type = .hybrid) ∧
    defBoom.execution = some { handler := "handler.py", function := "run", timeout := 30000 } ∧
    (0 : Int) ≤ 1 ∧
    (exWorldCached.execute fsWorld envWorld 0 1 "boom" [] =
       .ok ({ success := false, output := none, error := some "boom failed",
              execution_time := 1 }, exWorldCached) ∧
     (0 : Int) ≤ 1 - 0) := by
  refine ⟨rfl, rfl, Or.inl rfl, rfl, by decide, ?_⟩
  exact handler_exception_reported exWorldCached fsWorld envWorld 0 1 "boom" []
    defBoom { handler := "handler.py", function := "run", timeout := 30000 }
    { functions := [("run", fun _ _ => .error (.valueError "boom failed"))] }
    (fun _ _ => .error (.valueError "boom failed")) (.valueError "boom failed")
    rfl rfl (Or.inl rfl) rfl rfl rfl rfl (by decide)

/-! ### C5 -/

/-- The scan fold over per-candidate outcomes: successes are appended to
the catalog in task order (under fresh, pairwise-distinct names), failures
each append one warning line. -/
theorem scanFold_spec (results : List (Except PyExc SkillMetadata)) :
    ∀ (acc : List (String × SkillMetadata)) (accw : List String),
      ((results.filterMap exceptOk).map SkillMetadata.name).Nodup →
      (∀ m ∈ results.filterMap exceptOk, dictGet m.name acc = none) →
      results.foldl scanStep (acc, accw) =
        (acc ++ (results.filterMap exceptOk).map (fun m => (m.name, m)),
         accw ++ results.filterMap warningOf) := by
  induction results with
  | nil => intro acc accw _ _; simp
  | cons res rest ih =>
    intro acc accw hnd hfresh
    cases res with
    | error e =>
      have hnd2 : ((rest.filterMap exceptOk).map SkillMetadata.name).Nodup := by
        simpa [List.filterMap_cons, exceptOk] using hnd
      have hfresh2 : ∀ m ∈ rest.filterMap exceptOk, dictGet m.name acc = none := by
        intro m hm
        exact hfresh m (by simpa [List.filterMap_cons, exceptOk] using hm)
      have hrec := ih acc
        (accw ++ ["Warning: Failed to load skill metadata: " ++ e.msg]) hnd2 hfresh2
      simp only [List.foldl_cons, scanStep] at hrec ⊢
      rw [hrec]
      simp [List.filterMap_cons, exceptOk, warningOf]
    | ok m =>
      have hnd2 : m.name ∉ (rest.filterMap exceptOk).map SkillMetadata.name ∧
          ((rest.filterMap exceptOk).map SkillMetadata.name).Nodup := by
        simpa [List.filterMap_cons, exceptOk, List.nodup_cons] using hnd
      have hfm : dictGet m.name acc = none :=
        hfresh m (by simp [List.filterMap_cons, exceptOk])
      have hfresh2 : ∀ m2 ∈ rest.filterMap exceptOk,
          dictGet m2.name (acc ++ [(m.name, m)]) = none := by
        intro m2 hm2
        have h2 : dictGet m2.name acc = none := by
          apply hfresh m2
          simp only [List.filterMap_cons, exceptOk]
          exact List.mem_cons_of_mem m hm2
        rw [dictGet_append_of_left_none _ _ _ h2]
        have hne : ¬ m.name = m2.name := by
          intro hEq
          exact hnd2.1 (hEq ▸ List.mem_map_of_mem SkillMetadata.name hm2)
        simp [dictGet, hne]
      have hrec := ih (acc ++ [(m.name, m)]) accw hnd2.2 hfresh2
      simp only [List.foldl_cons, scanStep] at hrec ⊢
      rw [dictInsert_fresh _ _ _ hfm, hrec]
      simp [List.filterMap_cons, exceptOk, warningOf]

/-- C5: scanning an existing root with a fresh registry raises no
exception; it installs exactly the well-formed candidates (one catalog
entry per successful metadata load, in task order) and produces exactly one
warning line per malformed candidate.  (Fatality for an absent root is the
`if` guard of `scan` itself.) -/
theorem scan_partitions_valid_and_malformed (fs : FileSystem) (r : SkillRegistry)
    (hroot : fs.rootExists = true)
    (hmd : r._metadata = [])
    (hnd : (((fs.candidates.map (loadMetadata r.skills_dir)).filterMap exceptOk).map
        SkillMetadata.name).Nodup) :
    ∃ r2 warns, r.scan fs = .ok (r2, warns) ∧
      r2._metadata =
        ((fs.candidates.map (loadMetadata r.skills_dir)).filterMap exceptOk).map
          (fun m => (m.name, m)) ∧
      r2.list none = (fs.candidates.map (loadMetadata r.skills_dir)).filterMap exceptOk ∧
      warns = (fs.candidates.map (loadMetadata r.skills_dir)).filterMap warningOf ∧
      r2._loaded = true ∧
      r2._full_definitions = r._full_definitions := by
  have hfresh : ∀ m ∈ (fs.candidates.map (loadMetadata r.skills_dir)).filterMap exceptOk,
      dictGet m.name ([] : List (String × SkillMetadata)) = none := fun m _ => rfl
  have hfold := scanFold_spec (fs.candidates.map (loadMetadata r.skills_dir)) [] [] hnd hfresh
  unfold SkillRegistry.scan
  rw [hroot]
  simp only [Bool.true_eq_false, if_false, hmd, hfold]
  refine ⟨_, _, rfl, by simp, ?_, by simp, rfl, rfl⟩
  simp [SkillRegistry.list, List.map_map, Function.comp_def]

/-- Witness for C5: a concrete root with 3 well-formed and 1 malformed
descriptor — the scan succeeds, the catalog gets exactly the 3 valid
records, and exactly 1 warning is emitted. -/
theorem scan_partitions_valid_and_malformed_witness :
    fsScan.rootExists = true ∧
    regFresh._metadata = [] ∧
    ((((fsScan.candidates.map (loadMetadata regFresh.skills_dir)).filterMap exceptOk).map
        SkillMetadata.name).Nodup ∧
     ∃ r2 warns, regFresh.scan fsScan = .ok (r2, warns) ∧
       r2._metadata =
         ((fsScan.candidates.map (loadMetadata regFresh.skills_dir)).filterMap exceptOk).map
           (fun m => (m.name, m)) ∧
       r2.list none =
         (fsScan.candidates.map (loadMetadata regFresh.skills_dir)).filterMap exceptOk ∧
       warns = (fsScan.candidates.map (loadMetadata regFresh.skills_dir)).filterMap warningOf ∧
       r2._loaded = true ∧
       r2._full_definitions = regFresh._full_definitions) ∧
    ((fsScan.candidates.map (loadMetadata regFresh.skills_dir)).filterMap exceptOk).length = 3 ∧
    ((fsScan.candidates.map (loadMetadata regFresh.skills_dir)).filterMap warningOf).length = 1 :=
  ⟨rfl, rfl,
   ⟨by decide, scan_partitions_valid_and_malformed fsScan regFresh rfl rfl (by decide)⟩,
   by decide, rfl⟩

/-! ### C3 -/

/-- On a coherent registry, `load_full` of a loadable name yields exactly
the file-system-determined definition and preserves coherence, the
catalog, the loaded flag and the configured directory. -/
theorem load_full_coherent (r : SkillRegistry) (fs : FileSystem) (n : String)
    (d : SkillDefinition)
    (hco : Coherent fs r) (h : defFromFs r._metadata fs n = some d) :
    ∃ r2, r.load_full fs n = .ok (d, r2) ∧
      r2.skills_dir = r.skills_dir ∧ r2._metadata = r._metadata ∧
      r2._loaded = r._loaded ∧ Coherent fs r2 := by
  cases hcache : dictGet n r._full_definitions with
  | some d0 =>
    have hd0 : defFromFs r._metadata fs n = some d0 := hco n d0 hcache
    have hdd : d0 = d := by
      rw [hd0] at h
      injection h
    subst hdd
    refine ⟨r, ?_, rfl, rfl, rfl, hco⟩
    unfold SkillRegistry.load_full
    rw [hcache]
  | none =>
    unfold defFromFs at h
    split at h
    · rename_i meta config hmeta hdesc
      injection h with hbd
      subst hbd
      refine ⟨{ r with
                  _full_definitions :=
                    dictInsert n (buildDef meta config) r._full_definitions },
              ?_, rfl, rfl, rfl, ?_⟩
      · unfold SkillRegistry.load_full
        rw [hcache, hmeta, hdesc]
      · intro n2 d2 hget
        by_cases hn : n2 = n
        · subst hn
          rw [dictGet_insert_self] at hget
          injection hget with hh
          subst hh
          show defFromFs r._metadata fs n2 = _
          unfold defFromFs
          rw [hmeta, hdesc]
        · rw [dictGet_insert_ne n n2 _ _ hn] at hget
          exact hco n2 d2 hget
    · exact absurd h (by simp)

/-- On a loaded executor with a coherent registry, `execute` of a loadable
name returns the dispatch envelope of the file-system-determined
definition, preserving the executor invariants. -/
theorem execute_coherent (ex : SkillExecutor) (fs : FileSystem) (env : ScriptEnv)
    (t0 t1 : Int) (n : String) (inp : List (String × Value)) (d : SkillDefinition)
    (hld : ex._loaded = true) (hco : Coherent fs ex.registry)
    (h : defFromFs ex.registry._metadata fs n = some d) :
    ∃ ex2, ex.execute fs env t0 t1 n inp = .ok (dispatchResult env t0 t1 d inp, ex2) ∧
      ex2._loaded = true ∧ ex2.registry.skills_dir = ex.registry.skills_dir ∧
      ex2.registry._metadata = ex.registry._metadata ∧
      ex2.registry._loaded = ex.registry._loaded ∧
      Coherent fs ex2.registry := by
  obtain ⟨r2, hlf, hsd, hmd, hrl, hco2⟩ := load_full_coherent ex.registry fs n d hco h
  refine ⟨{ registry := r2, _loaded := ex._loaded }, ?_, hld, hsd, hmd, hrl, hco2⟩
  simp only [SkillExecutor.execute, SkillExecutor.ensure_loaded, hld, if_true, hlf,
    dispatchResult]
  split <;> rfl

/-- `cacheFree` only looks at the surviving fields, so it is preserved by
any step that preserves them. -/
theorem cacheFree_congr (ex ex2 : SkillExecutor)
    (h1 : ex2.registry.skills_dir = ex.registry.skills_dir)
    (h2 : ex2.registry._metadata = ex.registry._metadata)
    (h3 : ex2.registry._loaded = ex.registry._loaded)
    (h4 : ex2._loaded = ex._loaded) :
    cacheFree ex2 = cacheFree ex := by
  unfold cacheFree
  rw [h1, h2, h3, h4]

/-- A cache-free executor is trivially coherent. -/
theorem coherent_cacheFree (fs : FileSystem) (ex : SkillExecutor) :
    Coherent fs (cacheFree ex).registry := fun _ _ h => nomatch h

/-- The gather loop of `execute_batch`: with a loaded, coherent executor
and every entry loadable, it succeeds and the i-th result is exactly the
result of executing the i-th entry on its own (cache-free), in submission
order. -/
theorem batchLoop_spec (fs : FileSystem) (env : ScriptEnv) (t0 t1 : Int)
    (l : List BatchEntry) :
    ∀ ex : SkillExecutor, ex._loaded = true → Coherent fs ex.registry →
      (∀ e ∈ l, (defFromFs ex.registry._metadata fs e.skill_name).isSome = true) →
      ∃ rs ex2, batchLoop fs env t0 t1 ex l = .ok (rs, ex2) ∧
        rs.map some = l.map (entryResult fs env t0 t1 ex) ∧
        ex2._loaded = true ∧
        ex2.registry.skills_dir = ex.registry.skills_dir ∧
        ex2.registry._metadata = ex.registry._metadata ∧
        ex2.registry._loaded = ex.registry._loaded := by
  induction l with
  | nil =>
    intro ex hld _ _
    exact ⟨[], ex, rfl, rfl, hld, rfl, rfl, rfl⟩
  | cons e rest ih =>
    intro ex hld hco hall
    obtain ⟨d, hd⟩ := Option.isSome_iff_exists.mp (hall e (List.mem_cons_self e rest))
    obtain ⟨exm, hexecm, hl2, hsd, hmd, hrl, hco2⟩ :=
      execute_coherent ex fs env t0 t1 e.skill_name (e.input_data.getD []) d hld hco hd
    have hallm : ∀ e2 ∈ rest,
        (defFromFs exm.registry._metadata fs e2.skill_name).isSome = true := by
      intro e2 he2
      rw [hmd]
      exact hall e2 (List.mem_cons_of_mem e he2)
    obtain ⟨rs, exf, hbl, hmap, hl3, hsd3, hmd3, hrl3⟩ := ih exm hl2 hco2 hallm
    have hcf : cacheFree exm = cacheFree ex :=
      cacheFree_congr ex exm hsd hmd hrl (by rw [hl2, hld])
    have hfirst : entryResult fs env t0 t1 ex e =
        some (dispatchResult env t0 t1 d (e.input_data.getD [])) := by
      obtain ⟨exc2, hex2, _⟩ :=
        execute_coherent (cacheFree ex) fs env t0 t1 e.skill_name (e.input_data.getD []) d
          hld (coherent_cacheFree fs ex) hd
      unfold entryResult
      rw [hex2]
    have hrestmap : rest.map (entryResult fs env t0 t1 exm) =
        rest.map (entryResult fs env t0 t1 ex) := by
      have hfun : entryResult fs env t0 t1 exm = entryResult fs env t0 t1 ex := by
        funext e2
        unfold entryResult
        rw [hcf]
      rw [hfun]
    refine ⟨dispatchResult env t0 t1 d (e.input_data.getD []) :: rs, exf, ?_, ?_, hl3,
      by rw [hsd3, hsd], by rw [hmd3, hmd], by rw [hrl3, hrl]⟩
    · simp only [batchLoop, hexecm, hbl]
    · rw [List.map_cons, List.map_cons, hmap, hfirst, hrestmap]

/-- C3 (amended): provided every entry's skill name resolves (it is in the
catalog and its descriptor is readable), `execute_batch` returns a list of
the same length whose i-th element is the `SkillResult` of executing the
i-th entry on its own, in submission order; a failing entry (failed
`SkillResult`) neither cancels nor alters its siblings.  (Without the
resolvability proviso the batch raises — see the counterexample.) -/
theorem execute_batch_ordered_results (ex : SkillExecutor) (fs : FileSystem)
    (env : ScriptEnv) (t0 t1 : Int) (l : List BatchEntry)
    (hld : ex._loaded = true)
    (hco : Coherent fs ex.registry)
    (hall : ∀ e ∈ l, (defFromFs ex.registry._metadata fs e.skill_name).isSome = true) :
    ∃ rs ex2, ex.execute_batch fs env t0 t1 l = .ok (rs, ex2) ∧
      rs.length = l.length ∧
      rs.map some = l.map (entryResult fs env t0 t1 ex) := by
  obtain ⟨rs, ex2, hbl, hmap, _⟩ := batchLoop_spec fs env t0 t1 l ex hld hco hall
  refine ⟨rs, ex2, ?_, ?_, hmap⟩
  · simp only [SkillExecutor.execute_batch, SkillExecutor.ensure_loaded, hld, if_true, hbl]
  · have hlen := congrArg List.length hmap
    simpa using hlen

/-- C3 counterexample: a batch with one undiscovered skill name does not
return a list at all — the `ValueError` escaping `execute` propagates
through `asyncio.gather`, so the sibling's result is lost too. -/
theorem execute_batch_unknown_name_raises_cex :
    exWorld.execute_batch fsWorld envWorld 0 0
        [{ skill_name := "greet", input_data := some [] },
         { skill_name := "missing" }] =
      .error (.valueError ("Skill " ++ quo "missing" ++
        " not found in registry. Available skills: " ++
        pyReprStrList ["greet", "boom", "attr", "nptmpl"])) := rfl

/-- Witness for C3 (amended): a two-entry batch — a succeeding PromptOnly
skill and a ScriptOnly skill whose handler raises — returns both results in
submission order. -/
theorem execute_batch_ordered_results_witness :
    exWorld._loaded = true ∧
    (∀ e ∈ ([⟨"greet", some [("name", Value.vstr "Ada"), ("age", Value.vint 30)]⟩,
             ⟨"boom", some []⟩] : List BatchEntry),
       (defFromFs exWorld.registry._metadata fsWorld e.skill_name).isSome = true) ∧
    ∃ rs ex2, exWorld.execute_batch fsWorld envWorld 0 1
        [⟨"greet", some [("name", Value.vstr "Ada"), ("age", Value.vint 30)]⟩,
         ⟨"boom", some []⟩] = .ok (rs, ex2) ∧
      rs.length = 2 ∧
      rs.map some =
        ([⟨"greet", some [("name", Value.vstr "Ada"), ("age", Value.vint 30)]⟩,
          ⟨"boom", some []⟩] : List BatchEntry).map
          (entryResult fsWorld envWorld 0 1 exWorld) := by
  refine ⟨rfl, by decide, ?_⟩
  exact execute_batch_ordered_results exWorld fsWorld envWorld 0 1 _ rfl
    (fun _ _ h => nomatch h) (by decide)
